import Mathlib

/-!
Verification development for `fmmd` (fix music metadata), a command-line
utility that renames audio files from their embedded tag metadata
(src/main.rs). The embedding models:

* OS strings as byte lists (`List Nat`, each byte < 256), so that paths
  whose names are not valid UTF-8 are representable; `utf8Decode?` models
  Rust's UTF-8 validation used by `OsStr::to_str`.
* Rust `Path` values as a flag for absoluteness plus the list of normal
  components (`RPath`), with `parent`, `extension`, `join` and `to_str`
  following the documented `std::path` semantics on Unix.
* The id3 tag as `Tag` (optional title, optional track number), and the
  external world (tag parsing outcome, rename outcome, file existence) as
  an oracle `Env`; `std::fs::rename` results are applied to an explicit
  association-list filesystem `FS`.
* Effects (stdout lines, stderr lines, rename syscalls) as an explicit
  trace, and `unwrap` panics via `PanicOr`.

ANSI color styling of the error output (`owo_colors`) is abstracted away:
only the printed text is modelled.
-/

namespace Fmmd

/-- Outcome of a Rust computation that may `panic!` (via `unwrap`). -/
inductive PanicOr (α : Type) where
  | panic : PanicOr α
  | ok : α → PanicOr α
  deriving DecidableEq, Repr

instance {ε α : Type} [DecidableEq ε] [DecidableEq α] :
    DecidableEq (Except ε α) := fun x y =>
  match x, y with
  | .ok a, .ok b =>
    if h : a = b then .isTrue (by rw [h])
    else .isFalse (fun hc => h (Except.ok.inj hc))
  | .error a, .error b =>
    if h : a = b then .isTrue (by rw [h])
    else .isFalse (fun hc => h (Except.error.inj hc))
  | .ok _, .error _ => .isFalse (fun hc => Except.noConfusion hc)
  | .error _, .ok _ => .isFalse (fun hc => Except.noConfusion hc)

/-- UTF-8 continuation byte test (`0b10xxxxxx`). -/
def isCont (b : Nat) : Bool := 128 ≤ b && b < 192

/-- Decode a byte list as UTF-8 characters; `none` when the bytes are not
valid UTF-8 (models Rust's `str::from_utf8` validation: continuation
bytes, overlong encodings, surrogates and the `U+10FFFF` bound). -/
def utf8Chars : List Nat → Option (List Char)
  | [] => some []
  | b :: rest =>
    if b < 128 then
      (utf8Chars rest).map (fun cs => Char.ofNat b :: cs)
    else if b < 192 then
      none
    else if b < 224 then
      match rest with
      | b1 :: rest1 =>
        if isCont b1 then
          let c := (b - 192) * 64 + (b1 - 128)
          if c < 128 then none
          else (utf8Chars rest1).map (fun cs => Char.ofNat c :: cs)
        else none
      | [] => none
    else if b < 240 then
      match rest with
      | b1 :: b2 :: rest2 =>
        if isCont b1 && isCont b2 then
          let c := (b - 224) * 4096 + (b1 - 128) * 64 + (b2 - 128)
          if c < 2048 || (55296 ≤ c && c < 57344) then none
          else (utf8Chars rest2).map (fun cs => Char.ofNat c :: cs)
        else none
      | _ => none
    else if b < 245 then
      match rest with
      | b1 :: b2 :: b3 :: rest3 =>
        if isCont b1 && isCont b2 && isCont b3 then
          let c := (b - 240) * 262144 + (b1 - 128) * 4096
            + (b2 - 128) * 64 + (b3 - 128)
          if c < 65536 || 1114112 ≤ c then none
          else (utf8Chars rest3).map (fun cs => Char.ofNat c :: cs)
        else none
      | _ => none
    else none

/-- Model of `OsStr::to_str` on a byte list: the decoded string, when valid UTF-8. -/
def utf8Decode? (bs : List Nat) : Option String :=
  (utf8Chars bs).map (fun cs => String.mk cs)

/-- UTF-8 encoding of one character. -/
def encodeChar (c : Char) : List Nat :=
  let n := c.toNat
  if n < 128 then [n]
  else if n < 2048 then [192 + n / 64, 128 + n % 64]
  else if n < 65536 then [224 + n / 4096, 128 + (n / 64) % 64, 128 + n % 64]
  else [240 + n / 262144, 128 + (n / 4096) % 64, 128 + (n / 64) % 64, 128 + n % 64]

/-- Byte representation of a Rust `String` (UTF-8). -/
def strBytes (s : String) : List Nat :=
  s.data.foldr (fun c acc => encodeChar c ++ acc) []

/-- A Rust `Path` (Unix): whether it has a root, plus its normal
components, each an OS byte string that never contains the separator. -/
structure RPath where
  absolute : Bool
  components : List (List Nat)
  deriving DecidableEq, Repr

/-- Byte rendering of a path, components separated by the slash byte. -/
def renderBytes (p : RPath) : List Nat :=
  (if p.absolute then [47] else []) ++ List.intercalate [47] p.components

/-- Model of `Path::to_str`: the rendered path, when it is valid UTF-8. -/
def RPath.toStr? (p : RPath) : Option String :=
  utf8Decode? (renderBytes p)

/-- Model of `Path::parent`: `none` for an empty or root path, otherwise the path
without its final component (so `song.mp3` has the empty parent `""`). -/
def RPath.parent : RPath → Option RPath
  | ⟨_, []⟩ => none
  | ⟨a, cs⟩ => some ⟨a, cs.dropLast⟩

/-- Index of the last dot byte in a file name, if any. -/
def lastDotIdx? (name : List Nat) : Option Nat :=
  (List.range name.length).foldl
    (fun acc i => if name.get? i = some 46 then some i else acc) none

/-- Extension of a file name per Rust: the bytes after the last dot,
unless the only dot starts the name (`.gitignore` has no extension). -/
def extBytes (name : List Nat) : Option (List Nat) :=
  match lastDotIdx? name with
  | some i => if 1 ≤ i then some (name.drop (i + 1)) else none
  | none => none

/-- Model of `Path::extension`: extension of the final component, if any. -/
def RPath.extension? (p : RPath) : Option (List Nat) :=
  p.components.getLast?.bind extBytes

/-- Split a byte list on the slash byte. -/
def splitSlash (bs : List Nat) : List (List Nat) :=
  bs.foldr
    (fun b acc =>
      if b = 47 then [] :: acc
      else
        match acc with
        | g :: gs => (b :: g) :: gs
        | [] => [[b]])
    [[]]

/-- Model of `Path::new` on a string: absolute iff it starts with a slash; empty
components (repeated or trailing separators) are dropped. -/
def strToPath (s : String) : RPath :=
  let bs := strBytes s
  ⟨bs.head? = some 47, (splitSlash bs).filter (fun c => !c.isEmpty)⟩

/-- Model of `Path::join` with a string argument: an absolute argument replaces the
path, a relative one is appended component-wise. -/
def RPath.join (p : RPath) (s : String) : RPath :=
  let q := strToPath s
  if q.absolute then q else ⟨p.absolute, p.components ++ q.components⟩

/-- An id3 tag as read from a file: optional title text and optional
track number (`u32`, modelled as `Nat`). -/
structure Tag where
  title : Option String
  track : Option Nat
  deriving DecidableEq, Repr

/-- The three error variants of the program, with their `thiserror`
sources (the wrapped `id3::Error` / `std::io::Error` are opaque tokens). -/
inductive FmmdError where
  | FileParse : Nat → FmmdError
  | FileRename : Nat → FmmdError
  | NotEnoughMetadata : FmmdError
  deriving DecidableEq, Repr

/-- The `Display` text of each error, from the `#[error(...)]` attributes. -/
def FmmdError.message : FmmdError → String
  | .FileParse _ => "Could not parse the file"
  | .FileRename _ => "Could not rename the file"
  | .NotEnoughMetadata => "Could not find enough information in the file to rename it"

/-- Rust `format!("{:0>2}", track)`: pad the decimal rendering on the left
with zero characters to width at least 2. -/
def fmtTrack (t : Nat) : String :=
  String.mk (List.replicate (2 - (toString t).length) '0') ++ toString t

/-- Function `get_filename` from src/main.rs: title defaults to the empty string,
track to 0; fails with `NotEnoughMetadata` when both are missing;
otherwise builds `Path::new(parent).join(track-title.ext)`, panicking
(`unwrap`) when the parent or extension is absent or not UTF-8. -/
def get_filename (tag : Tag) (file : RPath) : PanicOr (Except FmmdError RPath) :=
  let title := tag.title.getD ""
  let track := tag.track.getD 0
  if title = "" ∧ track = 0 then
    .ok (.error .NotEnoughMetadata)
  else
    match file.parent with
    | none => .panic
    | some par =>
      match par.toStr? with
      | none => .panic
      | some parentStr =>
        match file.extension? with
        | none => .panic
        | some extB =>
          match utf8Decode? extB with
          | none => .panic
          | some ext =>
            let trackStr := fmtTrack track
            .ok (.ok ((strToPath parentStr).join
              (trackStr ++ "-" ++ title ++ "." ++ ext)))

/-- The parsed command line: positional `files`, `--dry-run`, `--verbose`. -/
structure Cli where
  files : List RPath
  dry_run : Bool
  verbose : Bool
  deriving DecidableEq, Repr

/-- Oracle for the external world: the outcome of `Tag::read_from_path`
(an `id3::Error` token on failure), the outcome of `std::fs::rename`
(an `io::Error` token on failure), and `Path::exists`. -/
structure Env where
  tagRead : RPath → Except Nat Tag
  renameOut : RPath → RPath → Option Nat
  fileExists : RPath → Bool

/-- Observable effects of a run: a line on stdout, a line on stderr, or a
`fs::rename` syscall (recorded whether or not the syscall succeeds). -/
inductive Effect where
  | printOut : String → Effect
  | printErr : String → Effect
  | renameCall : RPath → RPath → Effect
  deriving DecidableEq, Repr

/-- Function `rename_file` from src/main.rs: read the tag (`FileParse` on error),
derive the new name, print the preview line when `dry_run || verbose`
(panicking on a non-UTF-8 path), stop successfully under `dry_run`, and
otherwise issue the rename syscall (`FileRename` on failure). Returns the
effect trace together with the `Result`. -/
def rename_file (env : Env) (cli : Cli) (file : RPath) :
    PanicOr (List Effect × Except FmmdError Unit) :=
  match env.tagRead file with
  | .error error => .ok ([], .error (.FileParse error))
  | .ok tag =>
    match get_filename tag file with
    | .panic => .panic
    | .ok (.error e) => .ok ([], .error e)
    | .ok (.ok new_file) =>
      let printStep : PanicOr (List Effect) :=
        if cli.dry_run || cli.verbose then
          match file.toStr?, new_file.toStr? with
          | some s1, some s2 => .ok [.printOut (s1 ++ " -> " ++ s2)]
          | _, _ => .panic
        else .ok []
      match printStep with
      | .panic => .panic
      | .ok pre =>
        if cli.dry_run then
          .ok (pre, .ok ())
        else
          match env.renameOut file new_file with
          | some error =>
            .ok (pre ++ [.renameCall file new_file], .error (.FileRename error))
          | none =>
            .ok (pre ++ [.renameCall file new_file], .ok ())

/-- One iteration of the loop in `main`: skip a path that does not exist;
otherwise run `rename_file` and, on error, print the message and the
quoted path to stderr (panicking on a non-UTF-8 path). -/
def processFile (env : Env) (cli : Cli) (file : RPath) : PanicOr (List Effect) :=
  if env.fileExists file then
    match rename_file env cli file with
    | .panic => .panic
    | .ok (eff, .ok ()) => .ok eff
    | .ok (eff, .error error) =>
      match file.toStr? with
      | none => .panic
      | some s =>
        .ok (eff ++ [.printErr (error.message ++ ": \"" ++ s ++ "\"")])
  else .ok []

/-- The loop of `main` over `cli.files`, concatenating effect traces. -/
def mainLoop (env : Env) (cli : Cli) : List RPath → PanicOr (List Effect)
  | [] => .ok []
  | f :: rest =>
    match processFile env cli f with
    | .panic => .panic
    | .ok eff =>
      match mainLoop env cli rest with
      | .panic => .panic
      | .ok more => .ok (eff ++ more)

/-- Function `main`: run the loop and exit; the process exit status is 0 whenever
the run terminates normally. -/
def mainRun (env : Env) (cli : Cli) : PanicOr (List Effect × Nat) :=
  match mainLoop env cli cli.files with
  | .panic => .panic
  | .ok eff => .ok (eff, 0)

/-- A filesystem state: file contents (opaque tokens) keyed by rendered
path bytes. -/
def FS : Type := List (List Nat × Nat)

/-- Semantics of a successful `fs::rename`: move the source entry to the
destination key, overwriting any entry already there. -/
def fsRename (fs : FS) (src dst : List Nat) : FS :=
  match fs.lookup src with
  | none => fs
  | some d => (dst, d) :: fs.filter (fun kv => kv.1 != src && kv.1 != dst)

/-- Apply one effect to the filesystem: prints leave it unchanged, and a
rename syscall moves the file exactly when the oracle reports success. -/
def applyEffect (env : Env) (fs : FS) : Effect → FS
  | .printOut _ => fs
  | .printErr _ => fs
  | .renameCall src dst =>
    match env.renameOut src dst with
    | some _ => fs
    | none => fsRename fs (renderBytes src) (renderBytes dst)

/-- Apply a trace of effects in order. -/
def applyEffects (env : Env) (fs : FS) (effs : List Effect) : FS :=
  effs.foldl (applyEffect env) fs

/-- Whether a trace contains any `fs::rename` syscall. -/
def hasRename (effs : List Effect) : Bool :=
  effs.any fun e =>
    match e with
    | .renameCall _ _ => true
    | _ => false

/-! ### Concrete fixtures for the witnesses -/

/-- Witness path whose tag parses with full metadata. -/
def pGood : RPath := strToPath "music/song.mp3"

/-- Witness path whose tag data is unparsable. -/
def pBadTag : RPath := strToPath "music/bad.mp3"

/-- Witness path whose tag has empty title and track 0. -/
def pEmptyTag : RPath := strToPath "music/track.mp3"

/-- Witness path whose rename syscall fails. -/
def pLocked : RPath := strToPath "music/locked.mp3"

/-- Witness path that does not exist on disk. -/
def pMissing : RPath := strToPath "music/none.mp3"

/-- Witness path whose file name starts with the byte 255, so the path is
not valid UTF-8 while its extension still is. -/
def pRaw : RPath := ⟨false, [[255, 46, 109, 112, 51]]⟩

/-- The name `pGood` is renamed to. -/
def newGood : RPath := strToPath "music/05-Alright.mp3"

/-- Witness environment covering all per-file outcomes. -/
def envW : Env :=
  ⟨fun p =>
      if p = pGood then .ok ⟨some "Alright", some 5⟩
      else if p = pEmptyTag then .ok ⟨some "", some 0⟩
      else if p = pLocked then .ok ⟨some "Locked", some 7⟩
      else .error 3,
    fun p _ => if p = pLocked then some 13 else none,
    fun p => p != pMissing⟩

/-- Witness environment where every tag read fails. -/
def envRawErr : Env := ⟨fun _ => .error 9, fun _ _ => none, fun _ => true⟩

/-- Witness environment where every tag read yields (title "x", track 3). -/
def envRawOk : Env := ⟨fun _ => .ok ⟨some "x", some 3⟩, fun _ _ => none, fun _ => true⟩

/-- Witness command line: verbose, not dry-run. -/
def cliV : Cli := ⟨[pGood, pBadTag, pEmptyTag, pLocked, pMissing], false, true⟩

/-- Witness command line: dry-run (and verbose). -/
def cliDry : Cli := ⟨[pGood, pBadTag, pEmptyTag, pLocked, pMissing], true, true⟩

/-- The full effect trace of `mainRun envW cliV`. -/
def traceW : List Effect :=
  [.printOut "music/song.mp3 -> music/05-Alright.mp3",
   .renameCall pGood newGood,
   .printErr "Could not parse the file: \"music/bad.mp3\"",
   .printErr "Could not find enough information in the file to rename it: \"music/track.mp3\"",
   .printOut "music/locked.mp3 -> music/07-Locked.mp3",
   .renameCall pLocked (strToPath "music/07-Locked.mp3"),
   .printErr "Could not rename the file: \"music/locked.mp3\""]

/-! ### Helper lemmas -/

lemma string_mk_nil_append (s : String) : String.mk [] ++ s = s := by
  cases s
  rfl

lemma string_length_mk (l : List Char) : (String.mk l).length = l.length := rfl

lemma fmtTrack_length (t : Nat) :
    (fmtTrack t).length = max 2 (toString t).length := by
  unfold fmtTrack
  rw [String.length_append, string_length_mk, List.length_replicate]
  omega

lemma fmtTrack_of_wide (t : Nat) (h : 2 ≤ (toString t).length) :
    fmtTrack t = toString t := by
  unfold fmtTrack
  have h0 : 2 - (toString t).length = 0 := by omega
  rw [h0, List.replicate_zero, string_mk_nil_append]

lemma applyEffects_of_no_rename (env : Env) (effs : List Effect)
    (h : hasRename effs = false) : ∀ fs, applyEffects env fs effs = fs := by
  induction effs with
  | nil => intro fs; rfl
  | cons e rest ih =>
    intro fs
    have hrest : hasRename rest = false := by
      simp [hasRename] at h ⊢
      intro x hx
      exact h.2 x hx
    have he : applyEffect env fs e = fs := by
      cases e with
      | printOut s => rfl
      | printErr s => rfl
      | renameCall a b => simp [hasRename] at h
    calc applyEffects env fs (e :: rest)
        = applyEffects env (applyEffect env fs e) rest := rfl
      _ = applyEffects env fs rest := by rw [he]
      _ = fs := ih hrest fs

lemma join_empty_parent (s : String) :
    RPath.join ⟨false, []⟩ s = strToPath s := by
  unfold RPath.join
  cases habs : (strToPath s).absolute with
  | true => simp [habs]
  | false =>
    simp only [habs, if_neg Bool.false_ne_true]
    cases hq : strToPath s with
    | mk a c =>
      rw [hq] at habs
      simp at habs
      simp [habs]

/-! ### Claim theorems -/

/-- C1. For every tag with non-empty title or non-zero track, and every
original path with a (UTF-8 representable) parent directory and a (UTF-8
representable) extension, `get_filename` succeeds and returns the parent
joined with the track-title-extension name, where the track number is
zero-padded to width at least 2 and values already at least 2 digits wide
are used unchanged. -/
theorem get_filename_success_format (tag : Tag) (file par : RPath)
    (parentStr : String) (extB : List Nat) (ext : String)
    (hmeta : ¬(tag.title.getD "" = "" ∧ tag.track.getD 0 = 0))
    (hpar : file.parent = some par)
    (hps : par.toStr? = some parentStr)
    (hext : file.extension? = some extB)
    (hdec : utf8Decode? extB = some ext) :
    get_filename tag file =
      .ok (.ok ((strToPath parentStr).join
        (fmtTrack (tag.track.getD 0) ++ "-" ++ tag.title.getD "" ++ "." ++ ext)))
    ∧ (fmtTrack (tag.track.getD 0)).length = max 2 (toString (tag.track.getD 0)).length
    ∧ (2 ≤ (toString (tag.track.getD 0)).length →
        fmtTrack (tag.track.getD 0) = toString (tag.track.getD 0)) := by
  refine ⟨?_, fmtTrack_length _, fmtTrack_of_wide _⟩
  simp only [get_filename, if_neg hmeta, hpar, hps, hext, hdec]

/-- C1 witness: the tag (title "Alright", track 5) on `music/song.mp3`
yields `music/05-Alright.mp3`. -/
theorem get_filename_success_format_witness :
    get_filename ⟨some "Alright", some 5⟩ (strToPath "music/song.mp3") =
      .ok (.ok ((strToPath "music").join
        (fmtTrack ((⟨some "Alright", some 5⟩ : Tag).track.getD 0) ++ "-"
          ++ (⟨some "Alright", some 5⟩ : Tag).title.getD "" ++ "." ++ "mp3")))
    ∧ (fmtTrack ((⟨some "Alright", some 5⟩ : Tag).track.getD 0)).length
        = max 2 (toString ((⟨some "Alright", some 5⟩ : Tag).track.getD 0)).length
    ∧ (2 ≤ (toString ((⟨some "Alright", some 5⟩ : Tag).track.getD 0)).length →
        fmtTrack ((⟨some "Alright", some 5⟩ : Tag).track.getD 0)
          = toString ((⟨some "Alright", some 5⟩ : Tag).track.getD 0)) :=
  get_filename_success_format ⟨some "Alright", some 5⟩
    (strToPath "music/song.mp3") (strToPath "music") "music" [109, 112, 51] "mp3"
    (by decide) (by decide) (by decide) (by decide) (by decide)

/-- C2. `get_filename` returns `NotEnoughMetadata` exactly when the title
is empty (or absent) and the track is 0 (or absent). -/
theorem get_filename_notEnoughMetadata_iff (tag : Tag) (file : RPath) :
    get_filename tag file = .ok (.error .NotEnoughMetadata) ↔
      tag.title.getD "" = "" ∧ tag.track.getD 0 = 0 := by
  by_cases h : tag.title.getD "" = "" ∧ tag.track.getD 0 = 0
  · simp [get_filename, h]
  · simp only [get_filename, if_neg h, h, iff_false]
    cases hp : file.parent with
    | none => simp
    | some par =>
      cases hs : par.toStr? with
      | none => simp [hs]
      | some parentStr =>
        cases he : file.extension? with
        | none => simp [hs, he]
        | some extB =>
          cases hd : utf8Decode? extB with
          | none => simp [hs, he, hd]
          | some ext => simp [hs, he, hd]

/-- C2 witness: an all-empty tag fails with `NotEnoughMetadata`. -/
theorem get_filename_notEnoughMetadata_iff_witness :
    get_filename ⟨some "", some 0⟩ (strToPath "music/song.mp3") =
      .ok (.error .NotEnoughMetadata) :=
  (get_filename_notEnoughMetadata_iff ⟨some "", some 0⟩
    (strToPath "music/song.mp3")).mpr ⟨rfl, rfl⟩

/-- C8. With sufficient metadata, a path whose `parent()` or `extension()`
is absent makes `get_filename` panic (unwrap) instead of returning a
structured error. -/
theorem get_filename_panics_without_parent_or_ext (tag : Tag) (file : RPath)
    (hmeta : ¬(tag.title.getD "" = "" ∧ tag.track.getD 0 = 0))
    (h : file.parent = none ∨ file.extension? = none) :
    get_filename tag file = .panic := by
  rcases h with hp | he
  · simp only [get_filename, if_neg hmeta, hp]
  · cases hpar : file.parent with
    | none => simp only [get_filename, if_neg hmeta, hpar]
    | some par =>
      cases hs : par.toStr? with
      | none => simp only [get_filename, if_neg hmeta, hpar, hs]
      | some parentStr => simp only [get_filename, if_neg hmeta, hpar, hs, he]

/-- C8 witness: the root path `/` has no parent, so a tag with a title
still makes `get_filename` panic there. -/
theorem get_filename_panics_witness :
    get_filename ⟨some "x", none⟩ (strToPath "/") = .panic :=
  get_filename_panics_without_parent_or_ext ⟨some "x", none⟩ (strToPath "/")
    (by decide) (Or.inl (by decide))

/-- C9. A bare relative file name (one component with an extension, no
directory) succeeds: `parent()` is the empty path, not `None`, and the
result is just the derived file name with no directory prefix. -/
theorem get_filename_bare_filename (tag : Tag) (comp extB : List Nat) (ext : String)
    (hmeta : ¬(tag.title.getD "" = "" ∧ tag.track.getD 0 = 0))
    (hext : extBytes comp = some extB)
    (hdec : utf8Decode? extB = some ext) :
    get_filename tag ⟨false, [comp]⟩ =
      .ok (.ok (strToPath
        (fmtTrack (tag.track.getD 0) ++ "-" ++ tag.title.getD "" ++ "." ++ ext))) := by
  have hpar : RPath.parent ⟨false, [comp]⟩ = some ⟨false, []⟩ := rfl
  have hps : RPath.toStr? ⟨false, []⟩ = some "" := rfl
  have hx : RPath.extension? ⟨false, [comp]⟩ = some extB := by
    simp [RPath.extension?, hext]
  simp only [get_filename, if_neg hmeta, hpar, hps, hx, hdec]
  have hjoin : strToPath "" = (⟨false, []⟩ : RPath) := rfl
  rw [hjoin, join_empty_parent]

/-- C9 witness: `song.mp3` with tag (title "Alright", track 5) is renamed
to the bare `05-Alright.mp3`. -/
theorem get_filename_bare_filename_witness :
    get_filename ⟨some "Alright", some 5⟩ ⟨false, [[115, 111, 110, 103, 46, 109, 112, 51]]⟩ =
      .ok (.ok (strToPath
        (fmtTrack ((⟨some "Alright", some 5⟩ : Tag).track.getD 0) ++ "-"
          ++ (⟨some "Alright", some 5⟩ : Tag).title.getD "" ++ "." ++ "mp3"))) :=
  get_filename_bare_filename ⟨some "Alright", some 5⟩
    [115, 111, 110, 103, 46, 109, 112, 51] [109, 112, 51] "mp3"
    (by decide) (by decide) (by decide)

/-- Claim C3: under `dry_run`, any completed `rename_file` run issues no
rename syscall and leaves every filesystem state unchanged, and whenever
the same file would be renamed without `dry_run`, the dry run reports
success. -/
theorem rename_file_dry_run_frame (env : Env) (cli : Cli) (file : RPath)
    (hd : cli.dry_run = true) :
    ∀ eff r, rename_file env cli file = .ok (eff, r) →
      (hasRename eff = false ∧ ∀ fs, applyEffects env fs eff = fs)
      ∧ (∀ eff2 r2,
          rename_file env ⟨cli.files, false, cli.verbose⟩ file = .ok (eff2, r2) →
          hasRename eff2 = true → r = .ok ()) := by
  intro eff r h
  cases ht : env.tagRead file with
  | error e =>
    simp [rename_file, ht] at h
    obtain ⟨h1, h2⟩ := h
    subst h1; subst h2
    refine ⟨⟨rfl, fun fs => rfl⟩, ?_⟩
    intro eff2 r2 h2 hren
    simp [rename_file, ht] at h2
    obtain ⟨h3, _⟩ := h2
    subst h3
    simp [hasRename] at hren
  | ok tag =>
    cases hg : get_filename tag file with
    | panic => simp [rename_file, ht, hg] at h
    | ok res =>
      cases res with
      | error e =>
        simp [rename_file, ht, hg] at h
        obtain ⟨h1, h2⟩ := h
        subst h1; subst h2
        refine ⟨⟨rfl, fun fs => rfl⟩, ?_⟩
        intro eff2 r2 h2 hren
        simp [rename_file, ht, hg] at h2
        obtain ⟨h3, _⟩ := h2
        subst h3
        simp [hasRename] at hren
      | ok new_file =>
        cases hts1 : file.toStr? with
        | none => simp [rename_file, ht, hg, hd, hts1] at h
        | some s1 =>
          cases hts2 : new_file.toStr? with
          | none => simp [rename_file, ht, hg, hd, hts1, hts2] at h
          | some s2 =>
            simp [rename_file, ht, hg, hd, hts1, hts2] at h
            obtain ⟨h1, h2⟩ := h
            subst h1; subst h2
            refine ⟨⟨rfl, ?_⟩, fun eff2 r2 _ _ => rfl⟩
            exact applyEffects_of_no_rename env _ rfl

/-- Claim C3 witness: the dry run on `music/song.mp3` only prints the
preview, changes
no filesystem state, and reports success because the non-dry run would
rename the file. -/
theorem rename_file_dry_run_frame_witness :
    (hasRename [Effect.printOut "music/song.mp3 -> music/05-Alright.mp3"] = false
      ∧ ∀ fs, applyEffects envW fs
          [Effect.printOut "music/song.mp3 -> music/05-Alright.mp3"] = fs)
    ∧ (∀ eff2 r2,
        rename_file envW ⟨cliDry.files, false, cliDry.verbose⟩ pGood = .ok (eff2, r2) →
        hasRename eff2 = true → (Except.ok () : Except FmmdError Unit) = .ok ()) :=
  rename_file_dry_run_frame envW cliDry pGood rfl
    [Effect.printOut "music/song.mp3 -> music/05-Alright.mp3"]
    (Except.ok ()) (by decide)

/-- Claim C4: with `verbose` set and `dry_run` not set, a file whose tag
parses and yields a new name produces exactly the preview line on stdout
followed by exactly one rename syscall, whose outcome determines the
result. -/
theorem rename_file_verbose_preview_then_rename (env : Env) (cli : Cli)
    (file : RPath) (tag : Tag) (new : RPath) (s1 s2 : String)
    (hv : cli.verbose = true) (hd : cli.dry_run = false)
    (htag : env.tagRead file = .ok tag)
    (hget : get_filename tag file = .ok (.ok new))
    (h1 : file.toStr? = some s1) (h2 : new.toStr? = some s2) :
    rename_file env cli file =
      .ok ([.printOut (s1 ++ " -> " ++ s2), .renameCall file new],
        match env.renameOut file new with
        | some e => .error (.FileRename e)
        | none => .ok ()) := by
  cases hr : env.renameOut file new with
  | none => simp [rename_file, htag, hget, hv, hd, h1, h2, hr]
  | some e => simp [rename_file, htag, hget, hv, hd, h1, h2, hr]

/-- Claim C4 witness: verbose non-dry processing of `music/song.mp3`
prints the preview and then renames. -/
theorem rename_file_verbose_preview_then_rename_witness :
    rename_file envW cliV pGood =
      .ok ([.printOut ("music/song.mp3" ++ " -> " ++ "music/05-Alright.mp3"),
            .renameCall pGood newGood],
        match envW.renameOut pGood newGood with
        | some e => .error (.FileRename e)
        | none => .ok ()) :=
  rename_file_verbose_preview_then_rename envW cliV pGood
    ⟨some "Alright", some 5⟩ newGood "music/song.mp3" "music/05-Alright.mp3"
    rfl rfl (by decide) (by decide) (by decide) (by decide)

/-- Claim C5: the driver skips a nonexistent path with no output and no
rename; on a per-file error it appends exactly the stderr line with the
quoted path; and processing always continues with the remaining paths. -/
theorem main_driver_skip_report_continue :
    (∀ env cli file, env.fileExists file = false →
       processFile env cli file = .ok [])
  ∧ (∀ env cli file eff err s, env.fileExists file = true →
       rename_file env cli file = .ok (eff, .error err) → file.toStr? = some s →
       processFile env cli file =
         .ok (eff ++ [.printErr (err.message ++ ": \"" ++ s ++ "\"")]))
  ∧ (∀ env cli file rest eff, processFile env cli file = .ok eff →
       mainLoop env cli (file :: rest) =
         match mainLoop env cli rest with
         | .panic => .panic
         | .ok more => .ok (eff ++ more)) := by
  refine ⟨?_, ?_, ?_⟩
  · intro env cli file hne
    simp [processFile, hne]
  · intro env cli file eff err s hex hrf hts
    simp [processFile, hex, hrf, hts]
  · intro env cli file rest eff h
    simp only [mainLoop, h]

/-- Claim C5 witness: the missing path is skipped silently, the
empty-metadata path gets exactly its stderr line, and the loop continues
past the first file. -/
theorem main_driver_skip_report_continue_witness :
    processFile envW cliV pMissing = .ok []
    ∧ processFile envW cliV pEmptyTag =
        .ok ([] ++ [.printErr ((FmmdError.NotEnoughMetadata).message
          ++ ": \"" ++ "music/track.mp3" ++ "\"")])
    ∧ mainLoop envW cliV (pGood :: [pBadTag]) =
        (match mainLoop envW cliV [pBadTag] with
         | .panic => .panic
         | .ok more =>
            .ok ([.printOut "music/song.mp3 -> music/05-Alright.mp3",
                  .renameCall pGood newGood] ++ more)) :=
  ⟨main_driver_skip_report_continue.1 envW cliV pMissing (by decide),
   main_driver_skip_report_continue.2.1 envW cliV pEmptyTag []
     FmmdError.NotEnoughMetadata "music/track.mp3" (by decide) (by decide) (by decide),
   main_driver_skip_report_continue.2.2 envW cliV pGood [pBadTag]
     [.printOut "music/song.mp3 -> music/05-Alright.mp3", .renameCall pGood newGood]
     (by decide)⟩

/-- Claim C6: when the tag read fails, `rename_file` returns exactly the
`FileParse` error with an empty effect trace, so any filesystem state is
unchanged. -/
theorem rename_file_fileParse_untouched (env : Env) (cli : Cli)
    (file : RPath) (e : Nat)
    (htag : env.tagRead file = .error e) :
    rename_file env cli file = .ok ([], .error (.FileParse e))
    ∧ ∀ fs, applyEffects env fs [] = fs := by
  refine ⟨?_, fun fs => rfl⟩
  simp [rename_file, htag]

/-- Claim C6 witness: the unparsable `music/bad.mp3` yields `FileParse`
and no effects. -/
theorem rename_file_fileParse_untouched_witness :
    rename_file envW cliV pBadTag = .ok ([], .error (.FileParse 3))
    ∧ ∀ fs, applyEffects envW fs [] = fs :=
  rename_file_fileParse_untouched envW cliV pBadTag 3 (by decide)

/-- Claim C7: whenever `main` terminates normally, its exit code is 0,
whatever the input list and the per-file outcomes. -/
theorem mainRun_exit_zero (env : Env) (cli : Cli) (eff : List Effect)
    (code : Nat) (h : mainRun env cli = .ok (eff, code)) : code = 0 := by
  unfold mainRun at h
  cases hml : mainLoop env cli cli.files with
  | panic => rw [hml] at h; cases h
  | ok l => rw [hml] at h; cases h; rfl

/-- Claim C7 witness: a run in which files hit `FileParse`,
`NotEnoughMetadata` and `FileRename` errors still exits with code 0. -/
theorem mainRun_exit_zero_witness :
    mainRun envW cliV = .ok (traceW, 0) ∧ (0 : Nat) = 0 :=
  ⟨by decide, mainRun_exit_zero envW cliV traceW 0 (by decide)⟩

/-- Claim C10: a path that is not valid UTF-8 panics at whichever print
site it reaches: the stderr report in `main` after any per-file error,
and the stdout preview in `rename_file` when `dry_run` or `verbose` is
set and a new name was derived. -/
theorem nonUtf8_path_panics (env : Env) (cli : Cli) (file : RPath)
    (h : file.toStr? = none) :
    (∀ eff err, env.fileExists file = true →
       rename_file env cli file = .ok (eff, .error err) →
       processFile env cli file = .panic)
  ∧ (∀ tag new, env.tagRead file = .ok tag →
       get_filename tag file = .ok (.ok new) →
       (cli.dry_run || cli.verbose) = true →
       rename_file env cli file = .panic) := by
  constructor
  · intro eff err hex hrf
    simp [processFile, hex, hrf, h]
  · intro tag new htag hget hdv
    simp [rename_file, htag, hget, hdv, h]

/-- Claim C10 witness: the non-UTF-8 file name `>255<.mp3` panics at the
stderr site when its tag read fails, and at the stdout preview site when
its tag parses. -/
theorem nonUtf8_path_panics_witness :
    processFile envRawErr cliV pRaw = .panic
    ∧ rename_file envRawOk cliV pRaw = .panic :=
  ⟨(nonUtf8_path_panics envRawErr cliV pRaw (by decide)).1 []
      (.FileParse 9) rfl (by decide),
   (nonUtf8_path_panics envRawOk cliV pRaw (by decide)).2
      ⟨some "x", some 3⟩ ⟨false, [[48, 51, 45, 120, 46, 109, 112, 51]]⟩
      rfl (by decide) rfl⟩

end Fmmd
